import Mathlib

/-!
Shallow embedding of the multi-list server of the speech-to-text repository:
the file-backed list store (`multiListStorage`), its backup manager, the
list-API routes that mutate it (process-transcript, recipe, migrate-grocery)
and the client-side speech-capture restart logic.

File-system effects are made explicit: the backing document `lists.json` is
an `Option (List MList)` (`none` = file absent), backup files are a list of
modification times, timestamps and fresh uuids are passed in as arguments,
and the success of `fs.writeJson` is a boolean argument `writeOk`.
-/

/-- Embeds the TS enum `ListType` (server/types.ts). -/
inductive ListType
  | grocery
  | todo
  | movie
  | birthday
  | importantDates
  | custom
deriving DecidableEq, Repr

/-- Embeds the TS interface `ListItem` (server/types.ts).  `completed` is an
optional boolean; `metadata` is an open key-value bag, modelled as an
association list. -/
structure ListItem where
  id : String
  text : String
  completed : Option Bool
  createdAt : String
  updatedAt : String
  metadata : List (String × String)
deriving DecidableEq, Repr

/-- Embeds the TS interface `ListMetadata` (server/types.ts).  `description`,
`icon` and `color` are optional in TS but `createList` always materialises
them with defaults, so stored values are plain strings. -/
structure ListMetadata where
  name : String
  description : String
  icon : String
  color : String
  createdAt : String
  updatedAt : String
deriving DecidableEq, Repr

/-- Embeds the TS union `'manual' | 'alphabetical' | 'created' | 'updated'`. -/
inductive SortOrder
  | manual
  | alphabetical
  | created
  | updated
deriving DecidableEq, Repr

/-- Embeds the TS interface `ListSettings` (server/types.ts). -/
structure ListSettings where
  allowDuplicates : Bool
  maxItems : Option Nat
  sortOrder : SortOrder
  autoComplete : Bool
deriving DecidableEq, Repr

/-- Embeds the TS interface `List` (server/types.ts); named `MList` because
`List` is taken by Lean. -/
structure MList where
  id : String
  type : ListType
  metadata : ListMetadata
  items : List ListItem
  settings : ListSettings
deriving DecidableEq, Repr

/-- Embeds `Partial<ListSettings>`: each field may be present or absent. -/
structure SettingsUpdate where
  allowDuplicates : Option Bool
  maxItems : Option Nat
  sortOrder : Option SortOrder
  autoComplete : Option Bool
deriving DecidableEq, Repr

/-- Embeds the TS interface `CreateListRequest` (server/types.ts). -/
structure CreateListRequest where
  type : ListType
  name : String
  description : Option String
  icon : Option String
  color : Option String
  settings : Option SettingsUpdate
deriving DecidableEq, Repr

/-- Embeds the TS interface `UpdateListRequest` (server/types.ts). -/
structure UpdateListRequest where
  name : Option String
  description : Option String
  icon : Option String
  color : Option String
  settings : Option SettingsUpdate
deriving DecidableEq, Repr

/-- JS truthiness of an optional string: `undefined` and `""` are falsy. -/
def truthy : Option String → Bool
  | some s => s != ""
  | none => false

/-- JS `o || d` for an optional string `o`: yields `d` when `o` is absent or
empty. -/
def jsOr (o : Option String) (d : String) : String :=
  match o with
  | some s => bif s == "" then d else s
  | none => d

/-- JS `String.prototype.toLowerCase`, modelled as per-character lowering
(the repository's names and item texts are ASCII). -/
def strLower (s : String) : String :=
  ⟨s.data.map Char.toLower⟩

/-- JS `hay.includes(needle)`: contiguous-substring test. -/
def jsIncludes (hay needle : String) : Bool :=
  decide (needle.data <:+: hay.data)

/-- JS object spread `{...base, ...u}` for `Partial<ListSettings>` `u`:
present fields override, absent fields keep the base value. -/
def applySettings (base : ListSettings) (u : Option SettingsUpdate) : ListSettings :=
  match u with
  | none => base
  | some u =>
    { allowDuplicates := u.allowDuplicates.getD base.allowDuplicates
      maxItems := match u.maxItems with | some v => some v | none => base.maxItems
      sortOrder := u.sortOrder.getD base.sortOrder
      autoComplete := u.autoComplete.getD base.autoComplete }

/-- The settings defaults applied by `createList`
(multiListStorage, lines 93-98). -/
def defaultSettings : ListSettings :=
  { allowDuplicates := false, maxItems := none, sortOrder := .manual, autoComplete := false }

/-- State of the store's slice of the file system: the content of
`data/lists.json` (`none` when the file does not exist) and the modification
times of the backup files in `data/backups`. -/
structure StoreState where
  doc : Option (List MList)
  backups : List Nat
deriving DecidableEq, Repr

/-- `FileMultiListStorage.getAllLists`: reads the document, returning `[]`
when the file is absent (read errors also yield `[]` in the source; they are
not modelled separately). -/
def getAllLists (s : StoreState) : List MList :=
  s.doc.getD []

/-- `FileMultiListStorage.getList`: first list whose id matches. -/
def getList (s : StoreState) (listId : String) : Option MList :=
  (getAllLists s).find? (fun l => l.id == listId)

/-- The backup manager's retention count (`maxBackups`, backup.ts). -/
def maxBackups : Nat := 10

/-- `GroceryListBackup.cleanupOldBackups`: sort backup files by modification
time newest first and delete the ones beyond the retention count; when
nothing exceeds the count the directory is left as it is. -/
def cleanupOldBackups (maxB : Nat) (files : List Nat) : List Nat :=
  let sorted := List.insertionSort (· ≥ ·) files
  if maxB < sorted.length then sorted.take maxB else files

/-- `GroceryListBackup.createBackup`: copy the document to a fresh
timestamped backup file, then prune old backups. -/
def createBackup (backups : List Nat) (now : Nat) : List Nat :=
  cleanupOldBackups maxBackups (backups ++ [now])

/-- The guard of the backup step in `saveAllLists`: the document file exists
and currently holds at least one list. -/
def docHoldsLists (s : StoreState) : Bool :=
  match s.doc with
  | some ls => !ls.isEmpty
  | none => false

/-- `FileMultiListStorage.saveAllLists`: back up the current document when it
holds at least one list, then overwrite it with the new collection.  The
boolean result is whether the write succeeded; on failure the TS code throws
`Failed to save lists` and the document keeps its old content. -/
def saveAllLists (s : StoreState) (lists : List MList) (now : Nat) (writeOk : Bool) :
    Bool × StoreState :=
  let s1 := if docHoldsLists s then { s with backups := createBackup s.backups now } else s
  if writeOk then (true, { s1 with doc := some lists }) else (false, s1)

/-- Store-level errors thrown by `FileMultiListStorage` (the TS code throws
`Error`s with distinct messages). -/
inductive StoreErr
  | duplicateName
  | duplicateItem
  | storageFailure
deriving DecidableEq, Repr

/-- The new-list record built by `createList` (multiListStorage lines
80-99): fresh id, caller values with `||`-defaults, both timestamps stamped
`nowTs`, empty items, defaults-then-overrides settings. -/
def newListFromReq (req : CreateListRequest) (nowTs freshId : String) : MList :=
  { id := freshId
    type := req.type
    metadata :=
      { name := req.name
        description := req.description.getD ""
        icon := jsOr req.icon "üìù"
        color := jsOr req.color "#607D8B"
        createdAt := nowTs
        updatedAt := nowTs }
    items := []
    settings := applySettings defaultSettings req.settings }

/-- `FileMultiListStorage.createList`. -/
def createList (s : StoreState) (req : CreateListRequest) (nowTs : String)
    (freshId : String) (now : Nat) (writeOk : Bool) : Except StoreErr MList × StoreState :=
  let lists := getAllLists s
  match lists.find? (fun l => strLower l.metadata.name == strLower req.name) with
  | some _ => (.error .duplicateName, s)
  | none =>
    let newList := newListFromReq req nowTs freshId
    match saveAllLists s (lists ++ [newList]) now writeOk with
    | (true, s1) => (.ok newList, s1)
    | (false, s1) => (.error .storageFailure, s1)

/-- The merged record built by `updateList` (multiListStorage lines
134-145): JS-truthy `name`/`icon`/`color` override, `description` overrides
whenever present (`!== undefined`), settings are spread-merged, `updatedAt`
is stamped. -/
def applyListUpdate (list : MList) (req : UpdateListRequest) (nowTs : String) : MList :=
  { list with
    metadata :=
      { list.metadata with
        name := if truthy req.name then req.name.getD "" else list.metadata.name
        description := req.description.getD list.metadata.description
        icon := if truthy req.icon then req.icon.getD "" else list.metadata.icon
        color := if truthy req.color then req.color.getD "" else list.metadata.color
        updatedAt := nowTs }
    settings := applySettings list.settings req.settings }

/-- `FileMultiListStorage.updateList`.  `Except.ok none` is the TS `null`
(not found); write failure rethrows. -/
def updateList (s : StoreState) (listId : String) (req : UpdateListRequest)
    (nowTs : String) (now : Nat) (writeOk : Bool) :
    Except StoreErr (Option MList) × StoreState :=
  let lists := getAllLists s
  let listIndex := lists.findIdx (fun l => l.id == listId)
  match lists.get? listIndex with
  | none => (.ok none, s)
  | some list =>
    let conflict := truthy req.name && (req.name.getD "" != list.metadata.name) &&
      (lists.find? (fun l =>
        l.id != listId && strLower l.metadata.name == strLower (req.name.getD ""))).isSome
    if conflict then (.error .duplicateName, s)
    else
      let updated := applyListUpdate list req nowTs
      match saveAllLists s (lists.set listIndex updated) now writeOk with
      | (true, s1) => (.ok (some updated), s1)
      | (false, s1) => (.error .storageFailure, s1)

/-- `FileMultiListStorage.deleteList`: filters the list out and saves; a
write failure is caught and reported as `false`, the same value as
not-found. -/
def deleteList (s : StoreState) (listId : String) (now : Nat) (writeOk : Bool) :
    Bool × StoreState :=
  let lists := getAllLists s
  let filtered := lists.filter (fun l => l.id != listId)
  if filtered.length == lists.length then (false, s)
  else
    match saveAllLists s filtered now writeOk with
    | (true, s1) => (true, s1)
    | (false, s1) => (false, s1)

/-- The record produced by replacing a list's items
(`updateListItems`, multiListStorage lines 187-189). -/
def withItems (l : MList) (items : List ListItem) (nowTs : String) : MList :=
  { l with items := items, metadata := { l.metadata with updatedAt := nowTs } }

/-- `FileMultiListStorage.updateListItems`: wholesale item replacement. -/
def updateListItems (s : StoreState) (listId : String) (items : List ListItem)
    (nowTs : String) (now : Nat) (writeOk : Bool) :
    Except StoreErr (Option MList) × StoreState :=
  let lists := getAllLists s
  let listIndex := lists.findIdx (fun l => l.id == listId)
  match lists.get? listIndex with
  | none => (.ok none, s)
  | some list =>
    let updated := withItems list items nowTs
    match saveAllLists s (lists.set listIndex updated) now writeOk with
    | (true, s1) => (.ok (some updated), s1)
    | (false, s1) => (.error .storageFailure, s1)

/-- Embeds `Omit<ListItem, 'id' | 'createdAt' | 'updatedAt'>`, the argument
of `addListItem`. -/
structure NewItemData where
  text : String
  completed : Option Bool
  metadata : List (String × String)
deriving DecidableEq, Repr

/-- The item record built by `addListItem` (multiListStorage lines 224-230):
the caller data spread with a fresh id and fresh timestamps. -/
def newItemFromData (item : NewItemData) (nowTs freshId : String) : ListItem :=
  { id := freshId, text := item.text, completed := item.completed,
    createdAt := nowTs, updatedAt := nowTs, metadata := item.metadata }

/-- `FileMultiListStorage.addListItem`. -/
def addListItem (s : StoreState) (listId : String) (item : NewItemData)
    (nowTs : String) (freshId : String) (now : Nat) (writeOk : Bool) :
    Except StoreErr (Option ListItem) × StoreState :=
  let lists := getAllLists s
  let listIndex := lists.findIdx (fun l => l.id == listId)
  match lists.get? listIndex with
  | none => (.ok none, s)
  | some list =>
    let dup := !list.settings.allowDuplicates &&
      (list.items.find? (fun ex => strLower ex.text == strLower item.text)).isSome
    if dup then (.error .duplicateItem, s)
    else
      let newItem := newItemFromData item nowTs freshId
      let updated := withItems list (list.items ++ [newItem]) nowTs
      match saveAllLists s (lists.set listIndex updated) now writeOk with
      | (true, s1) => (.ok (some newItem), s1)
      | (false, s1) => (.error .storageFailure, s1)

/-- Embeds `Partial<ListItem>` as passed to `updateListItem`; `id`,
`createdAt` and `updatedAt` attempts are overridden by the code and so are
not modelled. -/
structure ItemUpdates where
  text : Option String
  completed : Option Bool
  metadata : Option (List (String × String))
deriving DecidableEq, Repr

/-- `FileMultiListStorage.updateListItem`: targeted single-item update that
preserves `id` and `createdAt` and stamps `updatedAt`. -/
def updateListItem (s : StoreState) (listId itemId : String) (u : ItemUpdates)
    (nowTs : String) (now : Nat) (writeOk : Bool) :
    Except StoreErr (Option ListItem) × StoreState :=
  let lists := getAllLists s
  let listIndex := lists.findIdx (fun l => l.id == listId)
  match lists.get? listIndex with
  | none => (.ok none, s)
  | some list =>
    let itemIndex := list.items.findIdx (fun it => it.id == itemId)
    match list.items.get? itemIndex with
    | none => (.ok none, s)
    | some item =>
      let updatedItem : ListItem :=
        { id := item.id
          text := u.text.getD item.text
          completed := match u.completed with | some b => some b | none => item.completed
          createdAt := item.createdAt
          updatedAt := nowTs
          metadata := u.metadata.getD item.metadata }
      let updated : MList :=
        { list with items := list.items.set itemIndex updatedItem,
                    metadata := { list.metadata with updatedAt := nowTs } }
      match saveAllLists s (lists.set listIndex updated) now writeOk with
      | (true, s1) => (.ok (some updatedItem), s1)
      | (false, s1) => (.error .storageFailure, s1)

/-- `FileMultiListStorage.deleteListItem`: filters the item out and saves; a
write failure is caught and reported as `false`, the same value as
not-found. -/
def deleteListItem (s : StoreState) (listId itemId : String) (nowTs : String)
    (now : Nat) (writeOk : Bool) : Bool × StoreState :=
  let lists := getAllLists s
  let listIndex := lists.findIdx (fun l => l.id == listId)
  match lists.get? listIndex with
  | none => (false, s)
  | some list =>
    let newItems := list.items.filter (fun it => it.id != itemId)
    if newItems.length == list.items.length then (false, s)
    else
      let updated : MList :=
        { list with items := newItems,
                    metadata := { list.metadata with updatedAt := nowTs } }
      match saveAllLists s (lists.set listIndex updated) now writeOk with
      | (true, s1) => (true, s1)
      | (false, s1) => (false, s1)

/-- The `changes` object of the structured-output schema
(`ProcessTranscriptSchema`, multiListApi.ts). -/
structure ProcChanges where
  added : List String
  removed : List String
  modified : List String
deriving DecidableEq, Repr

/-- A schema-validated model output for the process-transcript route:
`final_list` entries are `{text, completed?}` pairs. -/
structure ProcessOutput where
  final_list : List (String × Option Bool)
  reasoning : String
  changes : ProcChanges
deriving DecidableEq, Repr

/-- Outcome of a structured-generation call: `failed` covers both a model
call error and a schema-validation failure of the model output, which throw
alike in `withStructuredOutput(...).invoke`. -/
inductive LlmCall (α : Type)
  | ok (v : α)
  | failed
deriving DecidableEq, Repr

/-- HTTP-level result of the process-transcript route. -/
inductive ProcResult
  | badRequest (msg : String)
  | notFound
  | serverError (msg : String)
  | okResp (items : List ListItem) (reasoning : String) (changes : ProcChanges)
deriving DecidableEq, Repr

/-- Conversion of the model's `final_list` to `ListItem`s
(multiListApi.ts lines 269-276): fresh `generated-` ids, `completed || false`,
fresh timestamps, empty metadata. -/
def mkProcessedItems (finalList : List (String × Option Bool)) (now : Nat)
    (nowTs : String) : List ListItem :=
  finalList.enum.map (fun p =>
    { id := "generated-" ++ toString now ++ "-" ++ toString p.1
      text := p.2.1
      completed := some (p.2.2.getD false)
      createdAt := nowTs
      updatedAt := nowTs
      metadata := [] })

/-- The `POST /lists/:listId/process` route handler (multiListApi.ts lines
219-301).  `transcript` is the request-body field, `hasApiKey` whether
`OPENAI_API_KEY` is set, `llm` the outcome of the structured model call. -/
def processTranscript (s : StoreState) (listId : String) (transcript : Option String)
    (hasApiKey : Bool) (llm : LlmCall ProcessOutput) (now : Nat) (nowTs : String)
    (writeOk : Bool) : ProcResult × StoreState :=
  if !truthy transcript then (.badRequest "Transcript is required", s)
  else if !hasApiKey then (.badRequest "Missing OPENAI_API_KEY", s)
  else
    match getList s listId with
    | none => (.notFound, s)
    | some _ =>
      match llm with
      | .failed => (.serverError "Failed to process transcript", s)
      | .ok result =>
        let newItems := mkProcessedItems result.final_list now nowTs
        match updateListItems s listId newItems nowTs now writeOk with
        | (.ok (some _), s1) => (.okResp newItems result.reasoning result.changes, s1)
        | (.ok none, s1) => (.serverError "Failed to update list", s1)
        | (.error _, s1) => (.serverError "Failed to process transcript", s1)

/-- HTTP-level result of the recipe route. -/
inductive RecipeResult
  | badRequest (msg : String)
  | notFound
  | serverError (msg : String)
  | okResp (ingredients added : List String) (reasoning : String) (list : MList)
deriving DecidableEq, Repr

/-- The per-ingredient keep test of the recipe routes: an ingredient is kept
exactly when no existing (lower-cased) text contains it and it contains no
existing text (multiListApi.ts lines 433-439). -/
def keepIngredient (existingTexts : List String) (ing : String) : Bool :=
  !(existingTexts.any (fun ex => jsIncludes ex (strLower ing) || jsIncludes (strLower ing) ex))

/-- Conversion of merged ingredients to `ListItem`s
(multiListApi.ts lines 442-449). -/
def mkRecipeItems (newIngredients : List String) (now : Nat) (nowTs : String) :
    List ListItem :=
  newIngredients.enum.map (fun p =>
    { id := "recipe-" ++ toString now ++ "-" ++ toString p.1
      text := p.2
      completed := some false
      createdAt := nowTs
      updatedAt := nowTs
      metadata := [("source", "recipe")] })

/-- The `POST /lists/:listId/recipe` route handler (multiListApi.ts lines
387-469).  `llm` carries the extracted `(ingredients, reasoning)` on
success. -/
def recipeRoute (s : StoreState) (listId : String) (recipe : Option String)
    (hasApiKey : Bool) (llm : LlmCall (List String × String)) (now : Nat)
    (nowTs : String) (writeOk : Bool) : RecipeResult × StoreState :=
  if !truthy recipe then (.badRequest "Recipe text is required", s)
  else
    match getList s listId with
    | none => (.notFound, s)
    | some list =>
      if list.type != ListType.grocery then
        (.badRequest "Recipe functionality is only available for grocery lists", s)
      else if !hasApiKey then (.badRequest "Missing OPENAI_API_KEY", s)
      else
        match llm with
        | .failed => (.serverError "Failed to process recipe", s)
        | .ok result =>
          let existingTexts := list.items.map (fun it => strLower it.text)
          let newIngredients := result.1.filter (keepIngredient existingTexts)
          let newItems := mkRecipeItems newIngredients now nowTs
          let updatedItems := list.items ++ newItems
          match updateListItems s listId updatedItems nowTs now writeOk with
          | (.ok (some ul), s1) => (.okResp result.1 newIngredients result.2 ul, s1)
          | (.ok none, s1) => (.serverError "Failed to update list", s1)
          | (.error _, s1) => (.serverError "Failed to process recipe", s1)

/-- HTTP-level result of the migrate-grocery route. -/
inductive MigrateResult
  | okExisting (l : MList)
  | okCreatedEmpty (l : MList)
  | okMigrated (l : Option MList) (count : Nat)
  | serverError
deriving DecidableEq, Repr

/-- Conversion of legacy grocery strings to `ListItem`s
(multiListApi.ts lines 116-123). -/
def mkMigratedItems (legacyItems : List String) (now : Nat) (nowTs : String) :
    List ListItem :=
  legacyItems.enum.map (fun p =>
    { id := "migrated-" ++ toString now ++ "-" ++ toString p.1
      text := p.2
      completed := some false
      createdAt := nowTs
      updatedAt := nowTs
      metadata := [("migrated", "true")] })

/-- The `CreateListRequest` the migration route passes to `createList`
(multiListApi.ts lines 104-108 and 126-130). -/
def migrateCreateReq : CreateListRequest :=
  { type := .grocery
    name := "My Grocery List"
    description := some "Items to buy at the store"
    icon := none
    color := none
    settings := none }

/-- The `POST /lists/migrate-grocery` route handler (multiListApi.ts lines
86-144).  `legacyItems` is what `legacyStorage.getList()` returned. -/
def migrateGrocery (s : StoreState) (legacyItems : List String) (now : Nat)
    (nowTs : String) (freshId : String) (writeOk : Bool) :
    MigrateResult × StoreState :=
  let lists := getAllLists s
  match lists.find? (fun l => l.type == ListType.grocery) with
  | some g => (.okExisting g, s)
  | none =>
    if legacyItems.isEmpty then
      match createList s migrateCreateReq nowTs freshId now writeOk with
      | (.ok g, s1) => (.okCreatedEmpty g, s1)
      | (.error _, s1) => (.serverError, s1)
    else
      let items := mkMigratedItems legacyItems now nowTs
      match createList s migrateCreateReq nowTs freshId now writeOk with
      | (.ok g, s1) =>
        match updateListItems s1 g.id items nowTs now writeOk with
        | (.ok ul, s2) => (.okMigrated ul items.length, s2)
        | (.error _, s2) => (.serverError, s2)
      | (.error _, s1) => (.serverError, s1)

/-- Error categories delivered to `recognition.onerror`
(useSpeechRecognition.ts). -/
inductive SpeechErrorKind
  | notAllowed
  | noSpeech
  | network
  | aborted
  | other
deriving DecidableEq, Repr

/-- The reactive state of the `useSpeechRecognition` hook that the error and
end handlers read and write: `error`, the `autoRestart` flag and the
`shouldRestartRef` restart-intent ref. -/
structure CaptureState where
  isListening : Bool
  error : Option String
  autoRestart : Bool
  shouldRestart : Bool
deriving DecidableEq, Repr

/-- The `recognition.onerror` handler (useSpeechRecognition.ts lines 66-94).
The boolean result is whether a delayed retry (`setTimeout(startListening)`)
was scheduled by this handler. -/
def handleSpeechError (s : CaptureState) (e : SpeechErrorKind) : CaptureState × Bool :=
  match e with
  | .notAllowed =>
    ({ s with error := some "Microphone permission denied.", shouldRestart := false }, false)
  | .noSpeech =>
    if s.autoRestart && s.shouldRestart then (s, true)
    else ({ s with error := some "No speech was detected." }, false)
  | .network =>
    ({ s with error := some "A network error occurred." }, false)
  | .aborted =>
    ({ s with shouldRestart := false }, false)
  | .other =>
    ({ s with error := some "An unknown error occurred." }, false)

/-- The `recognition.onend` handler (useSpeechRecognition.ts lines 97-107).
The boolean result is whether a delayed restart was scheduled. -/
def handleSpeechEnd (s : CaptureState) : CaptureState × Bool :=
  ({ s with isListening := false }, s.autoRestart && s.shouldRestart)

/-- What holds of the backup directory after a mutating operation backed up
and overwrote a non-empty document at time `now`: the kept backups plus the
pruned ones are exactly the old backups plus one new backup stamped `now`,
at most `maxBackups` backups remain, and every pruned backup is at most as
recent as every kept one. -/
def backupPost (s s1 : StoreState) (now : Nat) : Prop :=
  ∃ dropped, List.Perm (s1.backups ++ dropped) (s.backups ++ [now]) ∧
    s1.backups.length ≤ maxBackups ∧
    ∀ x ∈ dropped, ∀ y ∈ s1.backups, x ≤ y

/-! ## Concrete sample data used by witness theorems -/

/-- A concrete stored item. -/
def sampleItem1 : ListItem :=
  { id := "it1", text := "flour", completed := some false,
    createdAt := "t0", updatedAt := "t0", metadata := [] }

/-- A second concrete stored item. -/
def sampleItem2 : ListItem :=
  { id := "it2", text := "milk", completed := some true,
    createdAt := "t0", updatedAt := "t0", metadata := [] }

/-- A concrete grocery list with the default settings
(`allowDuplicates = false`). -/
def sampleList : MList :=
  { id := "L1", type := .grocery,
    metadata := { name := "Groceries", description := "", icon := "cart",
                  color := "#4CAF50", createdAt := "t0", updatedAt := "t0" },
    items := [sampleItem1, sampleItem2],
    settings := defaultSettings }

/-- A concrete custom list that allows duplicate items. -/
def dupOkList : MList :=
  { id := "L2", type := .custom,
    metadata := { name := "Open", description := "d", icon := "pin",
                  color := "#AAAAAA", createdAt := "t0", updatedAt := "t0" },
    items := [sampleItem1],
    settings := { allowDuplicates := true, maxItems := none,
                  sortOrder := .manual, autoComplete := false } }

/-- A concrete store state holding the two sample lists and no backups. -/
def sampleState : StoreState := { doc := some [sampleList, dupOkList], backups := [] }

/-- A concrete update request that provides an empty-string icon and nothing
else. -/
def c7req : UpdateListRequest :=
  { name := none, description := none, icon := some "", color := none, settings := none }

/-- A concrete update request renaming to a name that case-insensitively
matches the other sample list. -/
def c7renameReq : UpdateListRequest :=
  { name := some "oPEn", description := none, icon := none, color := none,
    settings := none }

/-! ## Toolkit lemmas about list search and the shared save path -/

theorem get?_findIdx_eq_find? (p : α → Bool) (l : List α) :
    l.get? (l.findIdx p) = l.find? p := by
  induction l with
  | nil => rfl
  | cons a t ih =>
    by_cases h : p a = true
    · simp [List.findIdx_cons, h, List.find?_cons]
    · have h' : p a = false := by simpa using h
      simp only [List.findIdx_cons, h', cond_false, List.get?_cons_succ, List.find?_cons]
      exact ih

theorem find?_set_findIdx (p : α → Bool) (l : List α) (x : α) (hx : p x = true)
    (h : l.findIdx p < l.length) :
    (l.set (l.findIdx p) x).find? p = some x := by
  induction l with
  | nil => simp at h
  | cons a t ih =>
    by_cases hpa : p a = true
    · simp [List.findIdx_cons, hpa, List.find?_cons, hx]
    · have hpa' : p a = false := by simpa using hpa
      simp only [List.findIdx_cons, hpa', cond_false] at h ⊢
      simp only [List.set_cons_succ, List.find?_cons, hpa', cond_false]
      exact ih (Nat.lt_of_succ_lt_succ (by simpa using h))

theorem length_filter_lt_of_mem_not (p : α → Bool) (l : List α) (a : α)
    (ha : a ∈ l) (hpa : p a = false) : (l.filter p).length < l.length := by
  induction l with
  | nil => simp at ha
  | cons b t ih =>
    rcases List.mem_cons.mp ha with rfl | hmem
    · simp only [List.filter_cons, hpa]
      exact Nat.lt_succ_of_le (List.length_filter_le p t)
    · by_cases hb : p b = true
      · simpa [List.filter_cons, hb] using Nat.succ_lt_succ (ih hmem)
      · have hb' : p b = false := by simpa using hb
        simp only [List.filter_cons, hb', List.length_cons]
        exact Nat.lt_succ_of_lt (ih hmem)

theorem saveAllLists_eq (s : StoreState) (lists : List MList) (now : Nat) (w : Bool) :
    saveAllLists s lists now w =
      (w, if w then { doc := some lists,
                      backups := if docHoldsLists s then createBackup s.backups now
                                 else s.backups }
          else if docHoldsLists s then { s with backups := createBackup s.backups now }
          else s) := by
  cases hd : docHoldsLists s <;> cases w <;> simp [saveAllLists, hd]

theorem saveAllLists_backups (s : StoreState) (lists : List MList) (now : Nat) (w : Bool) :
    ((saveAllLists s lists now w).2).backups =
      if docHoldsLists s then createBackup s.backups now else s.backups := by
  cases hd : docHoldsLists s <;> cases w <;> simp [saveAllLists, hd]

theorem cleanup_spec (m : Nat) (files : List Nat) :
    ∃ dropped, List.Perm ((cleanupOldBackups m files) ++ dropped) files ∧
      (cleanupOldBackups m files).length ≤ m ∧
      ∀ x ∈ dropped, ∀ y ∈ cleanupOldBackups m files, x ≤ y := by
  unfold cleanupOldBackups
  by_cases h : m < (List.insertionSort (α := Nat) (· ≥ ·) files).length
  · simp only [if_pos h]
    refine ⟨(List.insertionSort (· ≥ ·) files).drop m, ?_, ?_, ?_⟩
    · rw [List.take_append_drop]
      exact List.perm_insertionSort _ files
    · simp only [List.length_take]
      exact Nat.min_le_left m _
    · intro x hx y hy
      have hs : List.Sorted (· ≥ ·) (List.insertionSort (· ≥ ·) files) :=
        List.sorted_insertionSort _ files
      exact hs.rel_of_mem_take_of_mem_drop hy hx
  · simp only [if_neg h]
    refine ⟨[], by simp, ?_, by simp⟩
    have hlen := (List.perm_insertionSort (α := Nat) (· ≥ ·) files).length_eq
    omega

theorem backupPost_saveAllLists (s : StoreState) (lists : List MList) (now : Nat)
    (w : Bool) (h : docHoldsLists s = true) :
    backupPost s ((saveAllLists s lists now w).2) now := by
  unfold backupPost
  rw [saveAllLists_backups, if_pos h]
  exact cleanup_spec maxBackups (s.backups ++ [now])

theorem getList_get? (s : StoreState) (listId : String) (l : MList)
    (h : getList s listId = some l) :
    (getAllLists s).get? ((getAllLists s).findIdx (fun x => x.id == listId)) = some l := by
  rw [get?_findIdx_eq_find?]
  exact h

theorem getList_findIdx_lt (s : StoreState) (listId : String) (l : MList)
    (h : getList s listId = some l) :
    (getAllLists s).findIdx (fun x => x.id == listId) < (getAllLists s).length :=
  (List.get?_eq_some.mp (getList_get? s listId l h)).1

theorem getList_id (s : StoreState) (listId : String) (l : MList)
    (h : getList s listId = some l) : (l.id == listId) = true := by
  unfold getList at h
  simpa using List.find?_some h

/-- Shared specification of a successful `updateListItems` call: the first
list matching the id is replaced by `withItems l items nowTs` and the write
goes through. -/
theorem updateListItems_spec (s : StoreState) (listId : String) (items : List ListItem)
    (nowTs : String) (now : Nat) (l : MList) (h : getList s listId = some l) :
    ∃ s1, updateListItems s listId items nowTs now true =
        (.ok (some (withItems l items nowTs)), s1) ∧
      getList s1 listId = some (withItems l items nowTs) := by
  have hg := getList_get? s listId l h
  have hlt := getList_findIdx_lt s listId l h
  have heq : updateListItems s listId items nowTs now true =
      (.ok (some (withItems l items nowTs)),
        { doc := some ((getAllLists s).set
            ((getAllLists s).findIdx (fun x => x.id == listId)) (withItems l items nowTs))
          backups := if docHoldsLists s then createBackup s.backups now
                     else s.backups }) := by
    simp only [updateListItems, hg, saveAllLists_eq, if_true]
  refine ⟨_, heq, ?_⟩
  show (((getAllLists s).set ((getAllLists s).findIdx (fun x => x.id == listId))
    (withItems l items nowTs)).find? (fun x => x.id == listId)) = _
  exact find?_set_findIdx _ _ _ (getList_id s listId l h) hlt

/-! ## Claim C1: whole-list replace round-trips exactly -/

/-- C1: for every existing list id and every item sequence, after
`updateListItems(id, items)` succeeds the stored list returned by
`getList(id)` has exactly `items` as its item collection — same texts, same
completed flags, same order, nothing dropped or reordered. -/
theorem c1_updateListItems_roundtrip (s : StoreState) (listId : String)
    (items : List ListItem) (nowTs : String) (now : Nat) (l : MList)
    (h : getList s listId = some l) :
    ∃ r s1, updateListItems s listId items nowTs now true = (.ok (some r), s1) ∧
      getList s1 listId = some r ∧ r.items = items := by
  obtain ⟨s1, heq, hget⟩ := updateListItems_spec s listId items nowTs now l h
  exact ⟨withItems l items nowTs, s1, heq, hget, rfl⟩

/-- Witness for C1 at a concrete store and item sequence. -/
theorem c1_witness :
    getList sampleState "L1" = some sampleList ∧
    (∃ r s1, updateListItems sampleState "L1" [sampleItem2] "t1" 5 true =
        (.ok (some r), s1) ∧
      getList s1 "L1" = some r ∧ r.items = [sampleItem2]) :=
  ⟨by decide,
   c1_updateListItems_roundtrip sampleState "L1" [sampleItem2] "t1" 5 sampleList (by decide)⟩

/-! ## Claim C2: reconciliation is atomic on failure -/

/-- C2: when the structured model call errors (or its output fails schema
validation) or the target list does not exist, the process-transcript route
fails and leaves the store state exactly as it was — no partial application
of the new item collection. -/
theorem c2_process_failure_atomic (s : StoreState) (listId : String)
    (transcript : Option String) (hasApiKey : Bool) (llm : LlmCall ProcessOutput)
    (now : Nat) (nowTs : String) (writeOk : Bool)
    (h : llm = LlmCall.failed ∨ getList s listId = none) :
    ∃ r, processTranscript s listId transcript hasApiKey llm now nowTs writeOk = (r, s) ∧
      ∀ items reasoning changes, r ≠ ProcResult.okResp items reasoning changes := by
  cases ht : truthy transcript with
  | false =>
    refine ⟨.badRequest "Transcript is required", ?_, ?_⟩
    · simp [processTranscript, ht]
    · intro items reasoning changes hne
      cases hne
  | true =>
    cases hk : hasApiKey with
    | false =>
      refine ⟨.badRequest "Missing OPENAI_API_KEY", ?_, ?_⟩
      · simp [processTranscript, ht, hk]
      · intro items reasoning changes hne
        cases hne
    | true =>
      rcases h with hllm | hget
      · cases hg : getList s listId with
        | none =>
          refine ⟨.notFound, ?_, ?_⟩
          · simp [processTranscript, ht, hk, hg]
          · intro items reasoning changes hne
            cases hne
        | some l =>
          subst hllm
          refine ⟨.serverError "Failed to process transcript", ?_, ?_⟩
          · simp [processTranscript, ht, hk, hg]
          · intro items reasoning changes hne
            cases hne
      · refine ⟨.notFound, ?_, ?_⟩
        · simp [processTranscript, ht, hk, hget]
        · intro items reasoning changes hne
          cases hne

/-- Witness for C2 at a concrete store: a failed model call with an existing
list, valid transcript and api key. -/
theorem c2_witness :
    ((LlmCall.failed (α := ProcessOutput)) = LlmCall.failed ∨
      getList sampleState "L1" = none) ∧
    (∃ r, processTranscript sampleState "L1" (some "add milk") true .failed 5 "t1" true =
        (r, sampleState) ∧
      ∀ items reasoning changes, r ≠ ProcResult.okResp items reasoning changes) :=
  ⟨Or.inl rfl,
   c2_process_failure_atomic sampleState "L1" (some "add milk") true .failed 5 "t1" true
     (Or.inl rfl)⟩

/-! ## Claim C3: duplicate-name rejection and fresh-list append in createList -/

/-- C3: when some existing list's name case-insensitively equals the
requested name, `createList` fails with the duplicate-name conflict and the
stored collection is unchanged; otherwise it appends exactly one new list —
with the fresh id and creation/update timestamps — and returns it. -/
theorem c3_createList_conflict_or_append (s : StoreState) (req : CreateListRequest)
    (nowTs freshId : String) (now : Nat) :
    ((∃ l2 ∈ getAllLists s, strLower l2.metadata.name = strLower req.name) →
      ∀ w, createList s req nowTs freshId now w = (.error .duplicateName, s)) ∧
    ((∀ l2 ∈ getAllLists s, strLower l2.metadata.name ≠ strLower req.name) →
      ∃ s1, createList s req nowTs freshId now true =
          (.ok (newListFromReq req nowTs freshId), s1) ∧
        getAllLists s1 = getAllLists s ++ [newListFromReq req nowTs freshId] ∧
        (newListFromReq req nowTs freshId).id = freshId ∧
        (newListFromReq req nowTs freshId).metadata.name = req.name ∧
        (newListFromReq req nowTs freshId).metadata.createdAt = nowTs ∧
        (newListFromReq req nowTs freshId).metadata.updatedAt = nowTs ∧
        (freshId ∉ (getAllLists s).map (fun l => l.id) →
          ∀ l2 ∈ getAllLists s, l2.id ≠ (newListFromReq req nowTs freshId).id)) := by
  constructor
  · rintro ⟨l2, hmem, hname⟩ w
    cases hfind : (getAllLists s).find?
        (fun l => strLower l.metadata.name == strLower req.name) with
    | none =>
      exact absurd (by simpa using hname) (List.find?_eq_none.mp hfind l2 hmem)
    | some x =>
      simp [createList, hfind]
  · intro hall
    have hf : (getAllLists s).find?
        (fun l => strLower l.metadata.name == strLower req.name) = none := by
      apply List.find?_eq_none.mpr
      intro x hx
      simpa using hall x hx
    have heq : createList s req nowTs freshId now true =
        (.ok (newListFromReq req nowTs freshId),
          { doc := some (getAllLists s ++ [newListFromReq req nowTs freshId])
            backups := if docHoldsLists s then createBackup s.backups now
                       else s.backups }) := by
      simp only [createList, hf, saveAllLists_eq, if_true]
    refine ⟨_, heq, rfl, rfl, rfl, rfl, rfl, ?_⟩
    intro hfresh l2 hmem heqid
    exact hfresh (List.mem_map.mpr ⟨l2, hmem, heqid⟩)

/-- Witness for C3: both branches at concrete inputs — a case-insensitive
collision with the sample store, and a fresh name. -/
theorem c3_witness :
    ((∃ l2 ∈ getAllLists sampleState,
        strLower l2.metadata.name = strLower "gROceries") ∧
      createList sampleState
        { type := .todo, name := "gROceries", description := none, icon := none,
          color := none, settings := none } "t1" "fresh9" 5 true =
        (.error .duplicateName, sampleState)) ∧
    (∃ s1, createList sampleState
        { type := .todo, name := "Chores", description := none, icon := none,
          color := none, settings := none } "t1" "fresh9" 5 true =
        (.ok (newListFromReq
          { type := .todo, name := "Chores", description := none, icon := none,
            color := none, settings := none } "t1" "fresh9"), s1) ∧
      getAllLists s1 = getAllLists sampleState ++ [newListFromReq
          { type := .todo, name := "Chores", description := none, icon := none,
            color := none, settings := none } "t1" "fresh9"]) := by
  constructor
  · constructor
    · exact ⟨sampleList, by decide, by decide⟩
    · exact (c3_createList_conflict_or_append sampleState
        { type := .todo, name := "gROceries", description := none, icon := none,
          color := none, settings := none } "t1" "fresh9" 5).1
        ⟨sampleList, by decide, by decide⟩ true
  · obtain ⟨s1, h1, h2, _⟩ := (c3_createList_conflict_or_append sampleState
      { type := .todo, name := "Chores", description := none, icon := none,
        color := none, settings := none } "t1" "fresh9" 5).2 (by decide)
    exact ⟨s1, h1, h2⟩

/-! ## Claim C6: duplicate-item rejection governed by allowDuplicates -/

/-- C6: on a list with `allowDuplicates = false`, adding an item whose text
case-insensitively matches an existing item fails with the duplicate-item
error and the store is unchanged; on a list with `allowDuplicates = true`
the call succeeds and the new item is appended at the end, growing the list
by exactly one. -/
theorem c6_addListItem_duplicates (s : StoreState) (listId : String)
    (item : NewItemData) (nowTs freshId : String) (now : Nat) (l : MList)
    (h : getList s listId = some l) :
    (l.settings.allowDuplicates = false →
      (∃ e ∈ l.items, strLower e.text = strLower item.text) →
      ∀ w, addListItem s listId item nowTs freshId now w = (.error .duplicateItem, s)) ∧
    (l.settings.allowDuplicates = true →
      ∃ s1, addListItem s listId item nowTs freshId now true =
          (.ok (some (newItemFromData item nowTs freshId)), s1) ∧
        getList s1 listId =
          some (withItems l (l.items ++ [newItemFromData item nowTs freshId]) nowTs) ∧
        (withItems l (l.items ++ [newItemFromData item nowTs freshId]) nowTs).items =
          l.items ++ [newItemFromData item nowTs freshId] ∧
        (newItemFromData item nowTs freshId).text = item.text) := by
  have hg := getList_get? s listId l h
  have hlt := getList_findIdx_lt s listId l h
  constructor
  · rintro hdup ⟨e, hmem, htext⟩ w
    cases hfd : l.items.find? (fun ex => strLower ex.text == strLower item.text) with
    | none =>
      exact absurd (by simpa using htext) (List.find?_eq_none.mp hfd e hmem)
    | some x =>
      simp only [addListItem, hg, hdup, hfd, Bool.not_false, Bool.true_and,
        Option.isSome_some]
      rfl
  · intro hdupT
    have heq : addListItem s listId item nowTs freshId now true =
        (.ok (some (newItemFromData item nowTs freshId)),
          { doc := some ((getAllLists s).set
              ((getAllLists s).findIdx (fun x => x.id == listId))
              (withItems l (l.items ++ [newItemFromData item nowTs freshId]) nowTs))
            backups := if docHoldsLists s then createBackup s.backups now
                       else s.backups }) := by
      simp only [addListItem, hg, hdupT, Bool.not_true, Bool.false_and,
        saveAllLists_eq]
      rfl
    refine ⟨_, heq, ?_, rfl, rfl⟩
    show (((getAllLists s).set ((getAllLists s).findIdx (fun x => x.id == listId))
      (withItems l (l.items ++ [newItemFromData item nowTs freshId]) nowTs)).find?
        (fun x => x.id == listId)) = _
    exact find?_set_findIdx _ _ _ (getList_id s listId l h) hlt

/-- Witness for C6: both branches at concrete inputs — a case-insensitive
text match against the no-duplicates sample grocery list, and the same text
added to the duplicates-allowed list. -/
theorem c6_witness :
    (getList sampleState "L1" = some sampleList ∧
      addListItem sampleState "L1"
        { text := "FLOUR", completed := none, metadata := [] } "t1" "fresh9" 5 true =
        (.error .duplicateItem, sampleState)) ∧
    (getList sampleState "L2" = some dupOkList ∧
      ∃ s1, addListItem sampleState "L2"
          { text := "FLOUR", completed := none, metadata := [] } "t1" "fresh9" 5 true =
          (.ok (some (newItemFromData
            { text := "FLOUR", completed := none, metadata := [] } "t1" "fresh9")), s1)) := by
  constructor
  · refine ⟨by decide, ?_⟩
    exact (c6_addListItem_duplicates sampleState "L1"
      { text := "FLOUR", completed := none, metadata := [] } "t1" "fresh9" 5 sampleList
      (by decide)).1 (by decide) ⟨sampleItem1, by decide, by decide⟩ true
  · refine ⟨by decide, ?_⟩
    obtain ⟨s1, h1, _⟩ := (c6_addListItem_duplicates sampleState "L2"
      { text := "FLOUR", completed := none, metadata := [] } "t1" "fresh9" 5 dupOkList
      (by decide)).2 (by decide)
    exact ⟨s1, h1⟩

/-! ## Claim C10: grocery migration is idempotent -/

/-- C10: when the store already contains a grocery-type list, the
migrate-grocery route returns that list and leaves the store untouched, so
repeated calls never create a second grocery list nor modify the
document. -/
theorem c10_migrate_idempotent (s : StoreState) (legacyItems : List String)
    (now : Nat) (nowTs freshId : String) (writeOk : Bool) (g : MList)
    (h : (getAllLists s).find? (fun l => l.type == ListType.grocery) = some g) :
    migrateGrocery s legacyItems now nowTs freshId writeOk = (.okExisting g, s) := by
  simp [migrateGrocery, h]

/-- Witness for C10 at the concrete sample store, whose first list is the
grocery list. -/
theorem c10_witness :
    (getAllLists sampleState).find? (fun l => l.type == ListType.grocery) =
      some sampleList ∧
    migrateGrocery sampleState ["old1"] 5 "t1" "fresh9" true =
      (.okExisting sampleList, sampleState) :=
  ⟨by decide,
   c10_migrate_idempotent sampleState ["old1"] 5 "t1" "fresh9" true sampleList (by decide)⟩

/-! ## Claim C8: recipe ingredient merge uses two-way substring dedup -/

/-- The texts of the items built from merged ingredients are exactly the
merged ingredients, in order. -/
theorem mkRecipeItems_map_text (xs : List String) (now : Nat) (nowTs : String) :
    (mkRecipeItems xs now nowTs).map (fun it => it.text) = xs := by
  unfold mkRecipeItems
  rw [List.map_map]
  exact List.enum_map_snd xs

/-- C8: on a successful recipe call against an existing grocery list, an
extracted ingredient is merged exactly when, case-insensitively, it is not a
substring of any existing item text and no existing item text is a substring
of it; the merged ingredients are appended after the existing items. -/
theorem c8_recipe_dedup (s : StoreState) (listId : String) (recipe : Option String)
    (now : Nat) (nowTs : String) (l : MList)
    (ingredients : List String) (reasoning : String)
    (hl : getList s listId = some l) (hty : l.type = ListType.grocery)
    (hr : truthy recipe = true) :
    ∃ added ul s1,
      recipeRoute s listId recipe true (.ok (ingredients, reasoning)) now nowTs true =
        (.okResp ingredients added reasoning ul, s1) ∧
      getList s1 listId = some ul ∧
      ul.items.map (fun it => it.text) = l.items.map (fun it => it.text) ++ added ∧
      ∀ ing, ing ∈ added ↔ ing ∈ ingredients ∧
        ∀ e ∈ l.items, ¬ ((strLower ing).data <:+: (strLower e.text).data) ∧
          ¬ ((strLower e.text).data <:+: (strLower ing).data) := by
  obtain ⟨s1, hupd, hget⟩ := updateListItems_spec s listId
    (l.items ++ mkRecipeItems
      (ingredients.filter (keepIngredient (l.items.map (fun it => strLower it.text))))
      now nowTs) nowTs now l hl
  have hroute : recipeRoute s listId recipe true (.ok (ingredients, reasoning))
      now nowTs true =
      (.okResp ingredients
        (ingredients.filter (keepIngredient (l.items.map (fun it => strLower it.text))))
        reasoning
        (withItems l (l.items ++ mkRecipeItems
          (ingredients.filter (keepIngredient (l.items.map (fun it => strLower it.text))))
          now nowTs) nowTs), s1) := by
    simp only [recipeRoute, hr, hl, hty, hupd]
    rfl
  refine ⟨_, _, s1, hroute, hget, ?_, ?_⟩
  · show (l.items ++ mkRecipeItems _ now nowTs).map (fun it => it.text) = _
    rw [List.map_append, mkRecipeItems_map_text]
  · intro ing
    rw [List.mem_filter]
    constructor
    · rintro ⟨hmem, hkeep⟩
      refine ⟨hmem, ?_⟩
      intro e he
      simp only [keepIngredient, Bool.not_eq_true', List.any_eq_false, List.mem_map,
        jsIncludes, Bool.or_eq_true, decide_eq_true_eq] at hkeep
      have := hkeep (strLower e.text) ⟨e, he, rfl⟩
      exact not_or.mp this
    · rintro ⟨hmem, hcond⟩
      refine ⟨hmem, ?_⟩
      simp only [keepIngredient, Bool.not_eq_true', List.any_eq_false, List.mem_map,
        jsIncludes, Bool.or_eq_true, decide_eq_true_eq]
      rintro x ⟨e, he, rfl⟩
      exact not_or.mpr (hcond e he)

/-- Witness for C8 at the concrete sample grocery list `["flour","milk"]`
and extracted ingredients `["flour","Milk","eggs"]`. -/
theorem c8_witness :
    (getList sampleState "L1" = some sampleList ∧ sampleList.type = ListType.grocery ∧
      truthy (some "chili recipe") = true) ∧
    (∃ added ul s1,
      recipeRoute sampleState "L1" (some "chili recipe") true
          (.ok (["flour", "Milk", "eggs"], "extracted")) 5 "t1" true =
        (.okResp ["flour", "Milk", "eggs"] added "extracted" ul, s1) ∧
      getList s1 "L1" = some ul ∧
      ul.items.map (fun it => it.text) =
        sampleList.items.map (fun it => it.text) ++ added ∧
      ∀ ing, ing ∈ added ↔ ing ∈ ["flour", "Milk", "eggs"] ∧
        ∀ e ∈ sampleList.items, ¬ ((strLower ing).data <:+: (strLower e.text).data) ∧
          ¬ ((strLower e.text).data <:+: (strLower ing).data)) :=
  ⟨⟨by decide, rfl, rfl⟩,
   c8_recipe_dedup sampleState "L1" (some "chili recipe") 5 "t1" sampleList
     ["flour", "Milk", "eggs"] "extracted" (by decide) rfl rfl⟩

/-! ## Claim C9: capture restart policy (network errors) -/

/-- C9 (failing input): with auto-restart enabled and the restart intent set,
a `network` error leaves the restart-intent ref set — despite the handler's
own comment that network errors must not auto-restart — so the following
session-end event still schedules an automatic restart; by contrast a
permission-denied (`not-allowed`) error clears the intent and the session-end
event schedules none. -/
theorem c9_network_error_still_restarts :
    ((handleSpeechError
        { isListening := true, error := none, autoRestart := true, shouldRestart := true }
        .network).1.shouldRestart = true ∧
      (handleSpeechEnd
        (handleSpeechError
          { isListening := true, error := none, autoRestart := true, shouldRestart := true }
          .network).1).2 = true) ∧
    (handleSpeechEnd
      (handleSpeechError
        { isListening := true, error := none, autoRestart := true, shouldRestart := true }
        .notAllowed).1).2 = false :=
  ⟨⟨rfl, rfl⟩, rfl⟩

/-! ## Claim C7: updateList is a partial update (with JS-truthiness caveat) -/

/-- C7 (counterexample to the claim as stated): the request `c7req` provides
`icon := some ""`, yet updating the sample list leaves the stored icon at its
prior value `"cart"` instead of merging the provided empty string — the code
guards each of name/icon/color with JS truthiness, so a provided empty
string is treated as omitted. -/
theorem c7_counterexample :
    (updateList sampleState "L1" c7req "t2" 7 true).1 =
      .ok (some { id := "L1",
                  type := .grocery,
                  metadata := { name := "Groceries",
                                description := "",
                                icon := "cart",
                                color := "#4CAF50",
                                createdAt := "t0",
                                updatedAt := "t2" },
                  items := [sampleItem1, sampleItem2],
                  settings := defaultSettings }) ∧
    c7req.icon = some "" ∧ ("cart" : String) ≠ "" :=
  ⟨rfl, rfl, by decide⟩

/-- The boolean rename-conflict guard of `updateList`, characterised as a
proposition: a non-empty provided name that differs (case-sensitively) from
the current name and case-insensitively matches a different list. -/
theorem updateList_conflict_iff (s : StoreState) (listId : String)
    (req : UpdateListRequest) (l : MList) :
    (truthy req.name && (req.name.getD "" != l.metadata.name) &&
      ((getAllLists s).find? (fun l2 =>
        l2.id != listId && strLower l2.metadata.name ==
          strLower (req.name.getD ""))).isSome) = true ↔
    (∃ n, req.name = some n ∧ n ≠ "" ∧ n ≠ l.metadata.name ∧
      ∃ l2 ∈ getAllLists s, l2.id ≠ listId ∧
        strLower l2.metadata.name = strLower n) := by
  cases hn : req.name with
  | none =>
    simp [truthy]
  | some n =>
    simp only [truthy, Option.getD_some, Bool.and_eq_true, bne_iff_ne,
      List.find?_isSome, List.mem_iff_get?]
    constructor
    · rintro ⟨⟨hne, hdiff⟩, l2, hl2, hp⟩
      simp only [Bool.and_eq_true, bne_iff_ne, beq_iff_eq] at hp
      exact ⟨n, rfl, hne, hdiff, l2, hl2, hp.1, hp.2⟩
    · rintro ⟨n2, hn2, hne, hdiff, l2, hl2, hid, hlow⟩
      cases hn2
      refine ⟨⟨hne, hdiff⟩, l2, hl2, ?_⟩
      simp only [Bool.and_eq_true, bne_iff_ne, beq_iff_eq]
      exact ⟨hid, hlow⟩

/-- C7 (amended): `updateList` returns not-found when the id is absent;
fails with the duplicate-name error exactly when the request provides a
non-empty name that differs from the current name and case-insensitively
matches a different list; otherwise it succeeds and persists the merge in
which a provided description always overrides (even empty), provided
non-empty name/icon/color override, empty-string name/icon/color are treated
as omitted, settings are spread-merged, omitted fields keep their prior
values, `id`, `items` and `createdAt` are preserved and `updatedAt` is
bumped. -/
theorem c7_updateList_partial_semantics (s : StoreState) (listId : String)
    (req : UpdateListRequest) (nowTs : String) (now : Nat) :
    (getList s listId = none → ∀ w, updateList s listId req nowTs now w = (.ok none, s)) ∧
    (∀ l, getList s listId = some l →
      ((∃ n, req.name = some n ∧ n ≠ "" ∧ n ≠ l.metadata.name ∧
          ∃ l2 ∈ getAllLists s, l2.id ≠ listId ∧
            strLower l2.metadata.name = strLower n) →
        ∀ w, updateList s listId req nowTs now w = (.error .duplicateName, s)) ∧
      (¬ (∃ n, req.name = some n ∧ n ≠ "" ∧ n ≠ l.metadata.name ∧
          ∃ l2 ∈ getAllLists s, l2.id ≠ listId ∧
            strLower l2.metadata.name = strLower n) →
        ∃ s1, updateList s listId req nowTs now true =
            (.ok (some (applyListUpdate l req nowTs)), s1) ∧
          getList s1 listId = some (applyListUpdate l req nowTs) ∧
          (applyListUpdate l req nowTs).id = l.id ∧
          (applyListUpdate l req nowTs).items = l.items ∧
          (applyListUpdate l req nowTs).metadata.createdAt = l.metadata.createdAt ∧
          (applyListUpdate l req nowTs).metadata.updatedAt = nowTs ∧
          (∀ n, req.name = some n → n ≠ "" →
            (applyListUpdate l req nowTs).metadata.name = n) ∧
          ((req.name = none ∨ req.name = some "") →
            (applyListUpdate l req nowTs).metadata.name = l.metadata.name) ∧
          (∀ d, req.description = some d →
            (applyListUpdate l req nowTs).metadata.description = d) ∧
          (req.description = none →
            (applyListUpdate l req nowTs).metadata.description = l.metadata.description) ∧
          (∀ i, req.icon = some i → i ≠ "" →
            (applyListUpdate l req nowTs).metadata.icon = i) ∧
          ((req.icon = none ∨ req.icon = some "") →
            (applyListUpdate l req nowTs).metadata.icon = l.metadata.icon) ∧
          (∀ c, req.color = some c → c ≠ "" →
            (applyListUpdate l req nowTs).metadata.color = c) ∧
          ((req.color = none ∨ req.color = some "") →
            (applyListUpdate l req nowTs).metadata.color = l.metadata.color) ∧
          (applyListUpdate l req nowTs).settings = applySettings l.settings req.settings)) := by
  constructor
  · intro hnone w
    have hg : (getAllLists s).get? ((getAllLists s).findIdx (fun x => x.id == listId)) =
        none := by
      rw [get?_findIdx_eq_find?]
      exact hnone
    simp only [updateList, hg]
  · intro l hl
    have hg := getList_get? s listId l hl
    have hlt := getList_findIdx_lt s listId l hl
    constructor
    · intro hcond w
      have hb := (updateList_conflict_iff s listId req l).mpr hcond
      simp only [updateList, hg, hb]
      rfl
    · intro hcond
      have hb : (truthy req.name && (req.name.getD "" != l.metadata.name) &&
          ((getAllLists s).find? (fun l2 =>
            l2.id != listId && strLower l2.metadata.name ==
              strLower (req.name.getD ""))).isSome) = false := by
        rw [← Bool.not_eq_true]
        intro hx
        exact hcond ((updateList_conflict_iff s listId req l).mp hx)
      have heq : updateList s listId req nowTs now true =
          (.ok (some (applyListUpdate l req nowTs)),
            { doc := some ((getAllLists s).set
                ((getAllLists s).findIdx (fun x => x.id == listId))
                (applyListUpdate l req nowTs))
              backups := if docHoldsLists s then createBackup s.backups now
                         else s.backups }) := by
        simp only [updateList, hg, hb, saveAllLists_eq]
        rfl
      refine ⟨_, heq, ?_, rfl, rfl, rfl, rfl, ?_, ?_, ?_, ?_, ?_, ?_, ?_, ?_, rfl⟩
      · show (((getAllLists s).set ((getAllLists s).findIdx (fun x => x.id == listId))
          (applyListUpdate l req nowTs)).find? (fun x => x.id == listId)) = _
        exact find?_set_findIdx _ _ _ (getList_id s listId l hl) hlt
      · intro n hn hne
        have ht : truthy (some n) = true := by
          simpa [truthy] using hne
        simp [applyListUpdate, hn, ht]
      · rintro (hn | hn) <;>
          simp [applyListUpdate, truthy, hn]
      · intro d hd
        simp [applyListUpdate, hd]
      · intro hd
        simp [applyListUpdate, hd]
      · intro i hi hne
        have ht : truthy (some i) = true := by
          simpa [truthy] using hne
        simp [applyListUpdate, hi, ht]
      · rintro (hi | hi) <;>
          simp [applyListUpdate, truthy, hi]
      · intro c hc hne
        have ht : truthy (some c) = true := by
          simpa [truthy] using hne
        simp [applyListUpdate, hc, ht]
      · rintro (hc | hc) <;>
          simp [applyListUpdate, truthy, hc]

/-- Witness for the amended C7 at concrete inputs: a case-insensitive rename
collision with the other sample list fails, and the empty-icon request
succeeds while keeping the prior icon. -/
theorem c7_witness :
    (getList sampleState "L1" = some sampleList) ∧
    (∀ w, updateList sampleState "L1" c7renameReq "t2" 7 w =
      (.error .duplicateName, sampleState)) ∧
    (∃ s1, updateList sampleState "L1" c7req "t2" 7 true =
        (.ok (some (applyListUpdate sampleList c7req "t2")), s1) ∧
      getList s1 "L1" = some (applyListUpdate sampleList c7req "t2")) := by
  refine ⟨by decide, ?_, ?_⟩
  · exact ((c7_updateList_partial_semantics sampleState "L1" c7renameReq "t2" 7).2
      sampleList (by decide)).1
      ⟨"oPEn", rfl, by decide, by decide, dupOkList, by decide, by decide, by decide⟩
  · obtain ⟨s1, h1, h2, _⟩ := ((c7_updateList_partial_semantics sampleState "L1" c7req
      "t2" 7).2 sampleList (by decide)).2
      (by rintro ⟨n, hn, _⟩; exact Option.noConfusion hn)
    exact ⟨s1, h1, h2⟩

/-! ## Claim C5: write-failure propagation (delete operations swallow it) -/

/-- Closing step shared by the write-path theorems: any state whose backups
are the freshly-created backup set satisfies the backup postcondition. -/
theorem backupPost_of_backups (s s1 : StoreState) (now : Nat)
    (hb : s1.backups = createBackup s.backups now) : backupPost s s1 now := by
  unfold backupPost
  rw [hb]
  exact cleanup_spec maxBackups (s.backups ++ [now])

/-- C5 (counterexample to the claim as stated): the sample store contains
list `L1`, yet `deleteList` under a failing document write returns `false` —
the very value it uses for not-found — instead of propagating a storage
failure (its result type carries no error at all, because the TS code
catches the throw and returns `false`). -/
theorem c5_counterexample :
    getList sampleState "L1" = some sampleList ∧
    deleteList sampleState "L1" 5 false =
      (false, { doc := some [sampleList, dupOkList], backups := [5] }) :=
  ⟨rfl, rfl⟩

/-- C5 (amended): when the document write fails, `createList`, `updateList`,
`updateListItems`, `addListItem` and `updateListItem` propagate the storage
failure, but `deleteList` and `deleteListItem` catch it and report `false`,
indistinguishable from their not-found result. -/
theorem c5_write_failure_propagation (s : StoreState) (now : Nat)
    (nowTs freshId : String) :
    (∀ req : CreateListRequest,
      (getAllLists s).find? (fun l => strLower l.metadata.name == strLower req.name) =
        none →
      (createList s req nowTs freshId now false).1 = .error .storageFailure) ∧
    (∀ listId req l, getList s listId = some l →
      ¬ (∃ n, req.name = some n ∧ n ≠ "" ∧ n ≠ l.metadata.name ∧
          ∃ l2 ∈ getAllLists s, l2.id ≠ listId ∧
            strLower l2.metadata.name = strLower n) →
      (updateList s listId req nowTs now false).1 = .error .storageFailure) ∧
    (∀ listId items l, getList s listId = some l →
      (updateListItems s listId items nowTs now false).1 = .error .storageFailure) ∧
    (∀ listId item l, getList s listId = some l →
      (l.settings.allowDuplicates = true ∨
        ∀ e ∈ l.items, strLower e.text ≠ strLower item.text) →
      (addListItem s listId item nowTs freshId now false).1 = .error .storageFailure) ∧
    (∀ listId itemId u l it, getList s listId = some l →
      l.items.find? (fun x => x.id == itemId) = some it →
      (updateListItem s listId itemId u nowTs now false).1 = .error .storageFailure) ∧
    (∀ listId l, getList s listId = some l →
      (deleteList s listId now false).1 = false) ∧
    (∀ listId itemId l it, getList s listId = some l →
      l.items.find? (fun x => x.id == itemId) = some it →
      (deleteListItem s listId itemId nowTs now false).1 = false) := by
  refine ⟨?_, ?_, ?_, ?_, ?_, ?_, ?_⟩
  · intro req hf
    simp only [createList, hf, saveAllLists_eq]
  · intro listId req l hl hcond
    have hg := getList_get? s listId l hl
    have hb : (truthy req.name && (req.name.getD "" != l.metadata.name) &&
        ((getAllLists s).find? (fun l2 =>
          l2.id != listId && strLower l2.metadata.name ==
            strLower (req.name.getD ""))).isSome) = false := by
      rw [← Bool.not_eq_true]
      intro hx
      exact hcond ((updateList_conflict_iff s listId req l).mp hx)
    simp only [updateList, hg, hb, saveAllLists_eq]
    rfl
  · intro listId items l hl
    have hg := getList_get? s listId l hl
    simp only [updateListItems, hg, saveAllLists_eq]
  · intro listId item l hl hcond
    have hg := getList_get? s listId l hl
    have hd : (!l.settings.allowDuplicates &&
        (l.items.find? (fun ex => strLower ex.text == strLower item.text)).isSome) =
        false := by
      rcases hcond with hT | hnone
      · simp [hT]
      · have hfn : l.items.find? (fun ex => strLower ex.text == strLower item.text) =
            none :=
          List.find?_eq_none.mpr (fun x hx => by simpa using hnone x hx)
        simp [hfn]
    simp only [addListItem, hg, hd, saveAllLists_eq]
    rfl
  · intro listId itemId u l it hl hit
    have hg := getList_get? s listId l hl
    have hgi : l.items.get? (l.items.findIdx (fun x => x.id == itemId)) = some it := by
      rw [get?_findIdx_eq_find?]
      exact hit
    simp only [updateListItem, hg, hgi, saveAllLists_eq]
  · intro listId l hl
    have hmem := List.mem_of_find?_eq_some hl
    have hpa : (l.id != listId) = false := by
      simp [bne, getList_id s listId l hl]
    have hlt := length_filter_lt_of_mem_not (fun x => x.id != listId)
      (getAllLists s) l hmem hpa
    have hguard : (((getAllLists s).filter (fun x => x.id != listId)).length ==
        (getAllLists s).length) = false :=
      beq_eq_false_iff_ne.mpr (Nat.ne_of_lt hlt)
    simp only [deleteList, hguard, saveAllLists_eq]
    rfl
  · intro listId itemId l it hl hit
    have hg := getList_get? s listId l hl
    have hmem := List.mem_of_find?_eq_some hit
    have hpa : (it.id != itemId) = false := by
      simp [bne, List.find?_some hit]
    have hlt := length_filter_lt_of_mem_not (fun x => x.id != itemId) l.items it hmem hpa
    have hguard : ((l.items.filter (fun x => x.id != itemId)).length ==
        l.items.length) = false :=
      beq_eq_false_iff_ne.mpr (Nat.ne_of_lt hlt)
    simp only [deleteListItem, hg, hguard, saveAllLists_eq]
    rfl

/-- Witness for the amended C5 at concrete inputs: a failing write makes
`updateListItems` propagate the storage failure while `deleteList` on an
existing list reports `false`. -/
theorem c5_witness :
    (getList sampleState "L1" = some sampleList) ∧
    (updateListItems sampleState "L1" [] "t1" 5 false).1 = .error .storageFailure ∧
    (deleteList sampleState "L1" 5 false).1 = false := by
  refine ⟨rfl, ?_, ?_⟩
  · exact (c5_write_failure_propagation sampleState 5 "t1" "fresh9").2.2.1
      "L1" [] sampleList rfl
  · exact (c5_write_failure_propagation sampleState 5 "t1" "fresh9").2.2.2.2.2.1
      "L1" sampleList rfl

/-! ## Claim C4: backup before overwrite, with retention pruning -/

/-- C4: whenever a mutating store operation reaches the document write and
the document currently holds at least one list, a backup stamped `now` is
added before the overwrite, afterwards at most `maxBackups` (= 10) backup
files remain, and every pruned backup is at most as recent as every kept one
(`backupPost`); this holds for all seven mutating operations and for both
write outcomes. -/
theorem c4_backup_retention (s : StoreState) (now : Nat) (nowTs freshId : String)
    (w : Bool) (hdoc : docHoldsLists s = true) :
    (∀ req : CreateListRequest,
      (getAllLists s).find? (fun l => strLower l.metadata.name == strLower req.name) =
        none →
      backupPost s ((createList s req nowTs freshId now w).2) now) ∧
    (∀ listId req l, getList s listId = some l →
      ¬ (∃ n, req.name = some n ∧ n ≠ "" ∧ n ≠ l.metadata.name ∧
          ∃ l2 ∈ getAllLists s, l2.id ≠ listId ∧
            strLower l2.metadata.name = strLower n) →
      backupPost s ((updateList s listId req nowTs now w).2) now) ∧
    (∀ listId items l, getList s listId = some l →
      backupPost s ((updateListItems s listId items nowTs now w).2) now) ∧
    (∀ listId item l, getList s listId = some l →
      (l.settings.allowDuplicates = true ∨
        ∀ e ∈ l.items, strLower e.text ≠ strLower item.text) →
      backupPost s ((addListItem s listId item nowTs freshId now w).2) now) ∧
    (∀ listId itemId u l it, getList s listId = some l →
      l.items.find? (fun x => x.id == itemId) = some it →
      backupPost s ((updateListItem s listId itemId u nowTs now w).2) now) ∧
    (∀ listId l, getList s listId = some l →
      backupPost s ((deleteList s listId now w).2) now) ∧
    (∀ listId itemId l it, getList s listId = some l →
      l.items.find? (fun x => x.id == itemId) = some it →
      backupPost s ((deleteListItem s listId itemId nowTs now w).2) now) := by
  refine ⟨?_, ?_, ?_, ?_, ?_, ?_, ?_⟩
  · intro req hf
    cases w <;>
      simp only [createList, hf, saveAllLists_eq, hdoc, eq_self_iff_true, if_true,
        Bool.false_eq_true, if_false] <;>
      exact backupPost_of_backups s _ now rfl
  · intro listId req l hl hcond
    have hg := getList_get? s listId l hl
    have hb : (truthy req.name && (req.name.getD "" != l.metadata.name) &&
        ((getAllLists s).find? (fun l2 =>
          l2.id != listId && strLower l2.metadata.name ==
            strLower (req.name.getD ""))).isSome) = false := by
      rw [← Bool.not_eq_true]
      intro hx
      exact hcond ((updateList_conflict_iff s listId req l).mp hx)
    cases w <;>
      simp only [updateList, hg, hb, saveAllLists_eq, hdoc, eq_self_iff_true, if_true,
        Bool.false_eq_true, if_false] <;>
      exact backupPost_of_backups s _ now rfl
  · intro listId items l hl
    have hg := getList_get? s listId l hl
    cases w <;>
      simp only [updateListItems, hg, saveAllLists_eq, hdoc, eq_self_iff_true, if_true,
        Bool.false_eq_true, if_false] <;>
      exact backupPost_of_backups s _ now rfl
  · intro listId item l hl hcond
    have hg := getList_get? s listId l hl
    have hd : (!l.settings.allowDuplicates &&
        (l.items.find? (fun ex => strLower ex.text == strLower item.text)).isSome) =
        false := by
      rcases hcond with hT | hnone
      · simp [hT]
      · have hfn : l.items.find? (fun ex => strLower ex.text == strLower item.text) =
            none :=
          List.find?_eq_none.mpr (fun x hx => by simpa using hnone x hx)
        simp [hfn]
    cases w <;>
      simp only [addListItem, hg, hd, saveAllLists_eq, hdoc, eq_self_iff_true, if_true,
        Bool.false_eq_true, if_false] <;>
      exact backupPost_of_backups s _ now rfl
  · intro listId itemId u l it hl hit
    have hg := getList_get? s listId l hl
    have hgi : l.items.get? (l.items.findIdx (fun x => x.id == itemId)) = some it := by
      rw [get?_findIdx_eq_find?]
      exact hit
    cases w <;>
      simp only [updateListItem, hg, hgi, saveAllLists_eq, hdoc, eq_self_iff_true,
        if_true, Bool.false_eq_true, if_false] <;>
      exact backupPost_of_backups s _ now rfl
  · intro listId l hl
    have hmem := List.mem_of_find?_eq_some hl
    have hpa : (l.id != listId) = false := by
      simp [bne, getList_id s listId l hl]
    have hlt := length_filter_lt_of_mem_not (fun x => x.id != listId)
      (getAllLists s) l hmem hpa
    have hguard : (((getAllLists s).filter (fun x => x.id != listId)).length ==
        (getAllLists s).length) = false :=
      beq_eq_false_iff_ne.mpr (Nat.ne_of_lt hlt)
    cases w <;>
      simp only [deleteList, hguard, saveAllLists_eq, hdoc, eq_self_iff_true, if_true,
        Bool.false_eq_true, if_false] <;>
      exact backupPost_of_backups s _ now rfl
  · intro listId itemId l it hl hit
    have hg := getList_get? s listId l hl
    have hmem := List.mem_of_find?_eq_some hit
    have hpa : (it.id != itemId) = false := by
      simp [bne, List.find?_some hit]
    have hlt := length_filter_lt_of_mem_not (fun x => x.id != itemId) l.items it hmem hpa
    have hguard : ((l.items.filter (fun x => x.id != itemId)).length ==
        l.items.length) = false :=
      beq_eq_false_iff_ne.mpr (Nat.ne_of_lt hlt)
    cases w <;>
      simp only [deleteListItem, hg, hguard, saveAllLists_eq, hdoc, eq_self_iff_true,
        if_true, Bool.false_eq_true, if_false] <;>
      exact backupPost_of_backups s _ now rfl

/-- Witness for C4 at a concrete non-empty store: replacing the items of
`L1` with a failing or succeeding write yields the backup postcondition. -/
theorem c4_witness :
    docHoldsLists sampleState = true ∧
    backupPost sampleState
      ((updateListItems sampleState "L1" [] "t1" 5 true).2) 5 :=
  ⟨rfl,
   (c4_backup_retention sampleState 5 "t1" "fresh9" true rfl).2.2.1
     "L1" [] sampleList rfl⟩
